import Mathlib

/-!
Verification of the MSConsole Electron main process (`src/main/main.js`):
shallow embedding of the backend health checker, process supervisor,
chat stream proxy (SSE buffer handling, error paths, cancellation) and
of the model-field resolution used when posting a chat request.
-/

namespace MSConsole

/-! ## JSON values

`JSON.parse` results.  Numbers are kept as their raw lexeme: no claim
depends on numeric values and this avoids floating point.  Object fields
are kept in insertion order, as JavaScript objects do for string keys. -/

inductive Json where
  | null : Json
  | bool (b : Bool) : Json
  | num (raw : String) : Json
  | str (s : String) : Json
  | arr (elems : List Json) : Json
  | obj (fields : List (String × Json)) : Json

/-- JSON whitespace accepted by `JSON.parse` around tokens. -/
def isJsonWs (c : Char) : Bool :=
  c = ' ' || c = '\t' || c = '\n' || c = '\r'

/-- Drop leading JSON whitespace. -/
def skipWs : List Char → List Char
  | [] => []
  | c :: cs => if isJsonWs c then skipWs cs else c :: cs

/-- Value of one hexadecimal digit. -/
def hexVal (c : Char) : Option Nat :=
  if '0' ≤ c ∧ c ≤ '9' then some (c.toNat - '0'.toNat)
  else if 'a' ≤ c ∧ c ≤ 'f' then some (c.toNat - 'a'.toNat + 10)
  else if 'A' ≤ c ∧ c ≤ 'F' then some (c.toNat - 'A'.toNat + 10)
  else none

/-- Four hexadecimal digits of a `\uXXXX` escape. -/
def parseHex4 : List Char → Option (Nat × List Char)
  | a :: b :: c :: d :: rest =>
    match hexVal a, hexVal b, hexVal c, hexVal d with
    | some ha, some hb, some hc, some hd =>
        some ((((ha * 16 + hb) * 16 + hc) * 16 + hd), rest)
    | _, _, _, _ => none
  | _ => none

/-- Body of a JSON string after the opening quote (escape handling as in
`JSON.parse`); returns the decoded string and the input after the closing
quote.  Fuel-driven; `startJsonParse` supplies enough fuel. -/
def parseStrBody : Nat → List Char → List Char → Option (String × List Char)
  | 0, _, _ => none
  | _ + 1, acc, [] => (fun _ => none) acc
  | fuel + 1, acc, c :: rest =>
    if c = '"' then some (String.mk acc.reverse, rest)
    else if c = '\\' then
      match rest with
      | [] => none
      | e :: rest2 =>
        if e = '"' then parseStrBody fuel ('"' :: acc) rest2
        else if e = '\\' then parseStrBody fuel ('\\' :: acc) rest2
        else if e = '/' then parseStrBody fuel ('/' :: acc) rest2
        else if e = 'b' then parseStrBody fuel (Char.ofNat 8 :: acc) rest2
        else if e = 'f' then parseStrBody fuel (Char.ofNat 12 :: acc) rest2
        else if e = 'n' then parseStrBody fuel ('\n' :: acc) rest2
        else if e = 'r' then parseStrBody fuel ('\r' :: acc) rest2
        else if e = 't' then parseStrBody fuel ('\t' :: acc) rest2
        else if e = 'u' then
          match parseHex4 rest2 with
          | some (n, rest3) => parseStrBody fuel (Char.ofNat n :: acc) rest3
          | none => none
        else none
    else if c.toNat < 32 then none
    else parseStrBody fuel (c :: acc) rest

/-- Optional fraction and exponent of a JSON number; consumes them only
when well formed, so a malformed tail is left to fail at the caller. -/
def parseFracExp (input : List Char) : List Char × List Char :=
  let fr :=
    match input with
    | '.' :: r =>
      let ds := r.takeWhile Char.isDigit
      if ds = [] then (([] : List Char), input)
      else ('.' :: ds, r.dropWhile Char.isDigit)
    | _ => ([], input)
  let r1 := fr.2
  let ex :=
    match r1 with
    | e :: r =>
      if e = 'e' ∨ e = 'E' then
        match r with
        | s :: r2 =>
          if s = '+' ∨ s = '-' then
            let ds := r2.takeWhile Char.isDigit
            if ds = [] then (([] : List Char), r1)
            else (e :: s :: ds, r2.dropWhile Char.isDigit)
          else
            let ds := r.takeWhile Char.isDigit
            if ds = [] then (([] : List Char), r1)
            else (e :: ds, r.dropWhile Char.isDigit)
        | [] => ([], r1)
      else ([], r1)
    | [] => ([], r1)
  (fr.1 ++ ex.1, ex.2)

/-- JSON number lexeme (sign, integer part without leading zeros,
optional fraction/exponent). -/
def parseNumber (input : List Char) : Option (String × List Char) :=
  let sgn :=
    match input with
    | '-' :: r => ((['-'] : List Char), r)
    | _ => ([], input)
  match sgn.2 with
  | [] => none
  | c :: r2 =>
    if c = '0' then
      let fe := parseFracExp r2
      some (String.mk (sgn.1 ++ '0' :: fe.1), fe.2)
    else if c.isDigit then
      let ds := r2.takeWhile Char.isDigit
      let fe := parseFracExp (r2.dropWhile Char.isDigit)
      some (String.mk (sgn.1 ++ c :: (ds ++ fe.1)), fe.2)
    else none

mutual

/-- One JSON value (after optional leading whitespace); fuel-driven
recursion, `startJsonParse` supplies enough fuel. -/
def parseVal : Nat → List Char → Option (Json × List Char)
  | 0, _ => none
  | fuel + 1, input =>
    match skipWs input with
    | '\x7b' :: rest =>
      (match skipWs rest with
       | '\x7d' :: rest2 => some (Json.obj [], rest2)
       | rest2 =>
         match parseFields fuel rest2 with
         | some (fields, rest3) => some (Json.obj fields, rest3)
         | none => none)
    | '[' :: rest =>
      (match skipWs rest with
       | ']' :: rest2 => some (Json.arr [], rest2)
       | rest2 =>
         match parseItems fuel rest2 with
         | some (items, rest3) => some (Json.arr items, rest3)
         | none => none)
    | '"' :: rest =>
      (match parseStrBody (rest.length + 1) [] rest with
       | some (s, rest2) => some (Json.str s, rest2)
       | none => none)
    | 't' :: 'r' :: 'u' :: 'e' :: rest => some (Json.bool true, rest)
    | 'f' :: 'a' :: 'l' :: 's' :: 'e' :: rest => some (Json.bool false, rest)
    | 'n' :: 'u' :: 'l' :: 'l' :: rest => some (Json.null, rest)
    | rest =>
      match parseNumber rest with
      | some (raw, rest2) => some (Json.num raw, rest2)
      | none => none

/-- Nonempty field list of a JSON object, up to and including the
closing brace. -/
def parseFields : Nat → List Char → Option (List (String × Json) × List Char)
  | 0, _ => none
  | fuel + 1, input =>
    match skipWs input with
    | '"' :: rest =>
      (match parseStrBody (rest.length + 1) [] rest with
       | some (key, rest2) =>
         (match skipWs rest2 with
          | ':' :: rest3 =>
            (match parseVal fuel rest3 with
             | some (v, rest4) =>
               (match skipWs rest4 with
                | ',' :: rest5 =>
                  (match parseFields fuel rest5 with
                   | some (fs, rest6) => some ((key, v) :: fs, rest6)
                   | none => none)
                | '\x7d' :: rest5 => some ([(key, v)], rest5)
                | _ => none)
             | none => none)
          | _ => none)
       | none => none)
    | _ => none

/-- Nonempty item list of a JSON array, up to and including the closing
bracket. -/
def parseItems : Nat → List Char → Option (List Json × List Char)
  | 0, _ => none
  | fuel + 1, input =>
    match parseVal fuel input with
    | some (v, rest) =>
      (match skipWs rest with
       | ',' :: rest2 =>
         (match parseItems fuel rest2 with
          | some (vs, rest3) => some (v :: vs, rest3)
          | none => none)
       | ']' :: rest2 => some ([v], rest2)
       | _ => none)
    | none => none

end

/-- `JSON.parse`: one value, whole input consumed up to trailing
whitespace; `none` models the thrown `SyntaxError`. -/
def startJsonParse (s : String) : Option Json :=
  match parseVal (2 * s.length + 8) s.data with
  | some (v, rest) => if skipWs rest = [] then some v else none
  | none => none

/-! ## SSE line splitting (`chat:stream` data handler)

`const lines = buffer.split('\n'); buffer = lines.pop() || ''`:
`splitNl` returns the complete (newline-terminated) lines and the
trailing incomplete remainder. -/

def splitNl : List Char → List (List Char) × List Char
  | [] => ([], [])
  | c :: cs =>
    let p := splitNl cs
    if c = '\n' then ([] :: p.1, p.2)
    else
      match p.1 with
      | [] => ([], c :: p.2)
      | m :: ms => ((c :: m) :: ms, p.2)

/-- One complete line, as handled inside the data callback:
`if (line.startsWith('data: ')) { JSON.parse(line.slice(6)) }`, parse
errors silently dropped. -/
def decodeLine (l : List Char) : Option Json :=
  if l.take 6 = "data: ".data then startJsonParse (String.mk (l.drop 6))
  else none

/-! ## Chat stream session (`chat:stream` / `chat:cancel`)

State of one `ipcMain.handle('chat:stream', ...)` invocation plus the
module-level `currentChatRequest` reference, and the transition taken by
each transport callback exactly as the handlers in `main.js` write it. -/

/-- Value the `chat:stream` promise resolves with. -/
structure ChatResult where
  success : Bool
  error : Option String
deriving DecidableEq

/-- Which response branch is active, with its accumulated data:
before the response callback, the non-200 error branch accumulating
`errorData`, or the 200 branch with the SSE `buffer`. -/
inductive Phase where
  | waiting : Phase
  | errorBody (status : Nat) (errorData : String) : Phase
  | streaming (buffer : String) : Phase
deriving DecidableEq

/-- `req` is whether `currentChatRequest` is non-null; `resolved` the
(first-wins) promise resolution. -/
structure SessionState where
  req : Bool
  phase : Phase
  resolved : Option ChatResult
deriving DecidableEq

/-- State right after `chat:stream` issues the request:
`currentChatRequest` set, no response yet, promise pending. -/
def initSession : SessionState :=
  { req := true, phase := Phase.waiting, resolved := none }

/-- Transport/UI callbacks that can fire on a session. -/
inductive Callback where
  | response (status : Nat) : Callback
  | resData (chunk : String) : Callback
  | resEnd : Callback
  | resError (message : String) : Callback
  | reqError (message : String) : Callback
  | cancel : Callback

/-- Result of one callback: new state, `chat:event` messages sent to the
renderer (in order), whether `destroy()` was called, and the value
returned when the callback is `chat:cancel`. -/
structure StepOut where
  state : SessionState
  sink : List Json
  destroyed : Bool
  cancelResult : Option Bool

/-- The `{ type: 'error', message }` object sent on error paths. -/
def errorEvent (message : String) : Json :=
  Json.obj [("type", Json.str "error"), ("message", Json.str message)]

/-- Promise resolution: the first `resolve` wins, later ones are no-ops. -/
def resolveOnce (resolved : Option ChatResult) (r : ChatResult) : Option ChatResult :=
  match resolved with
  | none => some r
  | some r0 => some r0

/-- One callback, exactly as the handlers registered in `chat:stream`
and `chat:cancel` behave. -/
def step (s : SessionState) : Callback → StepOut
  | Callback.response status =>
    if status ≠ 200 then
      ⟨{ s with phase := Phase.errorBody status "" }, [], false, none⟩
    else
      ⟨{ s with phase := Phase.streaming "" }, [], false, none⟩
  | Callback.resData chunk =>
    match s.phase with
    | Phase.waiting => ⟨s, [], false, none⟩
    | Phase.errorBody status acc =>
      ⟨{ s with phase := Phase.errorBody status (acc ++ chunk) }, [], false, none⟩
    | Phase.streaming buf =>
      ⟨{ s with phase := Phase.streaming (String.mk (splitNl (buf.data ++ chunk.data)).2) },
        ((splitNl (buf.data ++ chunk.data)).1).filterMap decodeLine, false, none⟩
  | Callback.resEnd =>
    match s.phase with
    | Phase.waiting => ⟨s, [], false, none⟩
    | Phase.errorBody status acc =>
      ⟨{ s with resolved := resolveOnce s.resolved ⟨false, some acc⟩ },
        [errorEvent ("HTTP " ++ toString status ++ ": " ++ acc)], false, none⟩
    | Phase.streaming _ =>
      ⟨{ s with req := false, resolved := resolveOnce s.resolved ⟨true, none⟩ },
        [], false, none⟩
  | Callback.resError message =>
    match s.phase with
    | Phase.streaming _ =>
      ⟨{ s with req := false, resolved := resolveOnce s.resolved ⟨false, some message⟩ },
        [errorEvent message], false, none⟩
    | _ => ⟨s, [], false, none⟩
  | Callback.reqError message =>
    ⟨{ s with req := false, resolved := resolveOnce s.resolved ⟨false, some message⟩ },
      [errorEvent message], false, none⟩
  | Callback.cancel =>
    if s.req then ⟨{ s with req := false }, [], true, some true⟩
    else ⟨s, [], false, some false⟩

/-- Run a sequence of callbacks, collecting all forwarded events. -/
def runTrace (s : SessionState) : List Callback → SessionState × List Json
  | [] => (s, [])
  | cb :: cbs =>
    let o := step s cb
    let r := runTrace o.state cbs
    (r.1, o.sink ++ r.2)

/-! ## Health checker (`checkBackendHealth`) -/

/-- Outcome of one HTTP GET `/health` attempt, abstracting the three
callbacks of the request: a response with a status code, a connection
error, or the client-side timeout. -/
inductive AttemptOutcome where
  | status (code : Nat) : AttemptOutcome
  | connError (message : String) : AttemptOutcome
  | timeout : AttemptOutcome
deriving DecidableEq

/-- How the probe resolves or rejects. -/
inductive HealthResult where
  | ok : HealthResult
  | failed (message : String) : HealthResult
deriving DecidableEq

/-- Message of the rejection produced when retries are exhausted, per
the three failure handlers. -/
def failureMessage : AttemptOutcome → String
  | AttemptOutcome.status code => "Health check failed: " ++ toString code
  | AttemptOutcome.connError message => message
  | AttemptOutcome.timeout => "Health check timeout"

/-- The recursive `attempt(attemptsLeft)` of `checkBackendHealth`:
a 200 resolves immediately; otherwise, with attempts left, wait `delay`
and retry, else reject with the reason of this final attempt.  Returns
the result, the number of GET attempts performed, and the list of
delays slept between consecutive attempts. -/
def healthAttempt (transport : Nat → AttemptOutcome) (delay : Nat) :
    Nat → Nat → HealthResult × Nat × List Nat
  | idx, 0 =>
    if transport idx = AttemptOutcome.status 200 then (HealthResult.ok, 1, [])
    else (HealthResult.failed (failureMessage (transport idx)), 1, [])
  | idx, attemptsLeft + 1 =>
    if transport idx = AttemptOutcome.status 200 then (HealthResult.ok, 1, [])
    else
      let r := healthAttempt transport delay (idx + 1) attemptsLeft
      (r.1, r.2.1 + 1, delay :: r.2.2)

/-- `checkBackendHealth(retries, delay)` against a given transport. -/
def checkBackendHealth (transport : Nat → AttemptOutcome)
    (retries delay : Nat) : HealthResult × Nat × List Nat :=
  healthAttempt transport delay 0 retries

/-! ## Process supervisor (`stopPythonBackend`, startup timeout) -/

/-- The module-level supervisor state: `pythonProcess` (is the handle
non-null) and `isBackendReady`. -/
structure SupervisorState where
  pythonProcess : Bool
  isBackendReady : Bool
deriving DecidableEq

/-- `stopPythonBackend()`: returns the new state and the signals sent. -/
def stopPythonBackend (s : SupervisorState) : SupervisorState × List String :=
  if s.pythonProcess then
    ({ pythonProcess := false, isBackendReady := false }, ["SIGTERM"])
  else (s, [])

/-- How the `startPythonBackend` promise settles. -/
inductive StartOutcome where
  | resolvedReady : StartOutcome
  | resolvedNotReady : StartOutcome
  | rejected (message : String) : StartOutcome
deriving DecidableEq

/-- The `setTimeout(..., 3000)` startup handler: if no readiness marker
was seen, run `checkBackendHealth(5, 1000)`; on success resolve `true`
and mark ready, on failure resolve `false` — never reject.  Returns the
resolution contributed by this handler and the new `isBackendReady`. -/
def startupTimeoutHandler (isBackendReady : Bool)
    (transport : Nat → AttemptOutcome) : Option StartOutcome × Bool :=
  if isBackendReady then (none, isBackendReady)
  else
    match (checkBackendHealth transport 5 1000).1 with
    | HealthResult.ok => (some StartOutcome.resolvedReady, true)
    | HealthResult.failed _ => (some StartOutcome.resolvedNotReady, isBackendReady)

/-! ## Model field of the posted chat request -/

/-- JavaScript `||` on strings: the empty string is falsy. -/
def jsStringOr (a b : String) : String :=
  if a = "" then b else a

/-- The `model` field of `postData` in `chat:stream`:
`model || store.get('model') || 'gpt-5.2'`, with an omitted request
model being falsy like the empty string. -/
def postDataModel (model : Option String) (storeModel : String) : String :=
  jsStringOr (jsStringOr (model.getD "") storeModel) "gpt-5.2"

/-- Substring containment (for "the message contains ..."). -/
def containsStr (hay needle : String) : Prop :=
  ∃ p q, hay = p ++ needle ++ q

/-! ## Byte-level chunk delivery

The transport hands the `data` handler raw byte chunks; the source
stringifies each chunk independently (`buffer += chunk.toString()`,
`main.js:446`), and `Buffer.toString('utf8')` substitutes U+FFFD for
byte sequences that are invalid or truncated within that chunk. -/

/-- The U+FFFD replacement character. -/
def replacementChar : Char := Char.ofNat 0xFFFD

/-- UTF-8 encoding of one Unicode scalar value. -/
def utf8EncodeChar (c : Char) : List Nat :=
  let v := c.toNat
  if v < 0x80 then [v]
  else if v < 0x800 then [0xC0 + v / 64, 0x80 + v % 64]
  else if v < 0x10000 then
    [0xE0 + v / 4096, 0x80 + v / 64 % 64, 0x80 + v % 64]
  else
    [0xF0 + v / 262144, 0x80 + v / 4096 % 64, 0x80 + v / 64 % 64, 0x80 + v % 64]

/-- UTF-8 encoding of a string; byte chunks that respect character
boundaries are exactly the images of this function. -/
def utf8Encode (s : String) : List Nat :=
  (s.data.map utf8EncodeChar).flatten

/-- UTF-8 decoding with U+FFFD replacement, as `Buffer.toString('utf8')`
performs on each chunk: strict continuation ranges (no overlong forms,
no surrogates, maximum U+10FFFF), an invalid or truncated sequence
yields a replacement character and decoding resumes at the offending
byte. -/
def utf8DecodeLoop : List Nat → List Char
  | [] => []
  | b :: bs =>
    if b < 0x80 then Char.ofNat b :: utf8DecodeLoop bs
    else if b < 0xC2 then replacementChar :: utf8DecodeLoop bs
    else if b < 0xE0 then
      match bs with
      | [] => [replacementChar]
      | b2 :: bs2 =>
        if 0x80 ≤ b2 ∧ b2 < 0xC0 then
          Char.ofNat ((b - 0xC0) * 64 + (b2 - 0x80)) :: utf8DecodeLoop bs2
        else replacementChar :: utf8DecodeLoop (b2 :: bs2)
    else if b < 0xF0 then
      match bs with
      | [] => [replacementChar]
      | b2 :: bs2 =>
        if (if b = 0xE0 then 0xA0 else 0x80) ≤ b2 ∧ b2 ≤ (if b = 0xED then 0x9F else 0xBF) then
          match bs2 with
          | [] => [replacementChar]
          | b3 :: bs3 =>
            if 0x80 ≤ b3 ∧ b3 < 0xC0 then
              Char.ofNat ((b - 0xE0) * 4096 + (b2 - 0x80) * 64 + (b3 - 0x80))
                :: utf8DecodeLoop bs3
            else replacementChar :: utf8DecodeLoop (b3 :: bs3)
        else replacementChar :: utf8DecodeLoop (b2 :: bs2)
    else if b < 0xF5 then
      match bs with
      | [] => [replacementChar]
      | b2 :: bs2 =>
        if (if b = 0xF0 then 0x90 else 0x80) ≤ b2 ∧ b2 ≤ (if b = 0xF4 then 0x8F else 0xBF) then
          match bs2 with
          | [] => [replacementChar]
          | b3 :: bs3 =>
            if 0x80 ≤ b3 ∧ b3 < 0xC0 then
              match bs3 with
              | [] => [replacementChar]
              | b4 :: bs4 =>
                if 0x80 ≤ b4 ∧ b4 < 0xC0 then
                  Char.ofNat ((b - 0xF0) * 262144 + (b2 - 0x80) * 4096
                      + (b3 - 0x80) * 64 + (b4 - 0x80))
                    :: utf8DecodeLoop bs4
                else replacementChar :: utf8DecodeLoop (b4 :: bs4)
            else replacementChar :: utf8DecodeLoop (b3 :: bs3)
        else replacementChar :: utf8DecodeLoop (b2 :: bs2)
    else replacementChar :: utf8DecodeLoop bs

/-- `chunk.toString()` on a raw byte chunk. -/
def utf8Decode (bytes : List Nat) : String :=
  String.mk (utf8DecodeLoop bytes)

/-- One raw transport data chunk: the source stringifies it before the
buffer append, independently of every other chunk. -/
def byteChunkCallback (chunk : List Nat) : Callback :=
  Callback.resData (utf8Decode chunk)

/-- A byte-level stream session: 200 response, then raw byte chunks. -/
def byteTrace (chunks : List (List Nat)) : List Callback :=
  Callback.response 200 :: chunks.map byteChunkCallback

/-! ## Lemmas about the SSE line splitter -/

theorem data_mk (l : List Char) : (String.mk l).data = l := rfl

theorem splitNl_of_not_mem (l : List Char) (h : '\n' ∉ l) : splitNl l = ([], l) := by
  induction l with
  | nil => rfl
  | cons c cs ih =>
    simp only [List.mem_cons, not_or] at h
    obtain ⟨h1, h2⟩ := h
    have hc : ¬ c = '\n' := fun e => h1 e.symm
    simp [splitNl, hc, ih h2]

theorem not_mem_splitNl_snd (l : List Char) : '\n' ∉ (splitNl l).2 := by
  induction l with
  | nil => simp [splitNl]
  | cons c cs ih =>
    by_cases hc : c = '\n'
    · simpa [splitNl, hc] using ih
    · rcases h1 : (splitNl cs).1 with _ | ⟨m, ms⟩
      · simp only [splitNl, h1, if_neg hc, List.mem_cons, not_or]
        exact ⟨fun e => hc e.symm, ih⟩
      · simpa [splitNl, hc, h1] using ih

theorem splitNl_append (a b : List Char) :
    splitNl (a ++ b)
      = ((splitNl a).1 ++ (splitNl ((splitNl a).2 ++ b)).1,
         (splitNl ((splitNl a).2 ++ b)).2) := by
  induction a with
  | nil => simp [splitNl]
  | cons c cs ih =>
    by_cases hc : c = '\n'
    · subst hc
      simp [splitNl, ih]
    · rcases h1 : (splitNl cs).1 with _ | ⟨m, ms⟩
      · have hsc : splitNl (c :: cs) = ([], c :: (splitNl cs).2) := by
          simp [splitNl, hc, h1]
        rcases hq : (splitNl ((splitNl cs).2 ++ b)).1 with _ | ⟨q, qs⟩
        · simp [splitNl, hc, ih, h1, hq, hsc]
        · simp [splitNl, hc, ih, h1, hq, hsc]
      · simp [splitNl, hc, ih, h1]

/-- Running the streaming data handler over any chunk list equals
splitting the concatenation of the buffer with all chunks: the decoded
events (in order) are those of the complete lines, and the buffer ends
as the trailing incomplete line. -/
theorem runTrace_streaming (chunks : List String) :
    ∀ (r : Bool) (res : Option ChatResult) (buf : String), '\n' ∉ buf.data →
    runTrace ⟨r, Phase.streaming buf, res⟩ (chunks.map Callback.resData)
      = (⟨r, Phase.streaming
            (String.mk (splitNl (buf.data ++ (chunks.map String.data).flatten)).2), res⟩,
         ((splitNl (buf.data ++ (chunks.map String.data).flatten)).1).filterMap decodeLine) := by
  induction chunks with
  | nil =>
    intro r res buf h
    simp [runTrace, splitNl_of_not_mem buf.data h]
  | cons c cs ih =>
    intro r res buf h
    have hb : '\n' ∉ (String.mk (splitNl (buf.data ++ c.data)).2).data :=
      not_mem_splitNl_snd (buf.data ++ c.data)
    simp only [List.map_cons, runTrace, step, ih _ _ _ hb, data_mk,
      List.flatten_cons, ← List.append_assoc]
    rw [splitNl_append (buf.data ++ c.data) ((cs.map String.data).flatten)]
    simp [List.filterMap_append]

/-! ## UTF-8 round trip: chunks on character boundaries decode losslessly -/

theorem utf8DecodeLoop_ascii (b : Nat) (bs : List Nat) (h : b < 0x80) :
    utf8DecodeLoop (b :: bs) = Char.ofNat b :: utf8DecodeLoop bs := by
  rw [utf8DecodeLoop.eq_def]
  simp [h]

theorem utf8DecodeLoop_two (b b2 : Nat) (bs : List Nat)
    (h1 : 0xC2 ≤ b) (h2 : b < 0xE0) (h3 : 0x80 ≤ b2) (h4 : b2 < 0xC0) :
    utf8DecodeLoop (b :: b2 :: bs)
      = Char.ofNat ((b - 0xC0) * 64 + (b2 - 0x80)) :: utf8DecodeLoop bs := by
  have e1 : ¬ b < 0x80 := by omega
  have e2 : ¬ b < 0xC2 := by omega
  rw [utf8DecodeLoop.eq_def]
  simp [e1, e2, h2, h3, h4]

theorem utf8DecodeLoop_three (b b2 b3 : Nat) (bs : List Nat)
    (h1 : 0xE0 ≤ b) (h2 : b < 0xF0)
    (hlo : (if b = 0xE0 then 0xA0 else 0x80) ≤ b2)
    (hhi : b2 ≤ (if b = 0xED then 0x9F else 0xBF))
    (h3 : 0x80 ≤ b3) (h4 : b3 < 0xC0) :
    utf8DecodeLoop (b :: b2 :: b3 :: bs)
      = Char.ofNat ((b - 0xE0) * 4096 + (b2 - 0x80) * 64 + (b3 - 0x80)) :: utf8DecodeLoop bs := by
  have e1 : ¬ b < 0x80 := by omega
  have e2 : ¬ b < 0xC2 := by omega
  have e3 : ¬ b < 0xE0 := by omega
  rw [utf8DecodeLoop.eq_def]
  simp [e1, e2, e3, h2, hlo, hhi, h3, h4]

theorem utf8DecodeLoop_four (b b2 b3 b4 : Nat) (bs : List Nat)
    (h1 : 0xF0 ≤ b) (h2 : b < 0xF5)
    (hlo : (if b = 0xF0 then 0x90 else 0x80) ≤ b2)
    (hhi : b2 ≤ (if b = 0xF4 then 0x8F else 0xBF))
    (h3 : 0x80 ≤ b3) (h4 : b3 < 0xC0) (h5 : 0x80 ≤ b4) (h6 : b4 < 0xC0) :
    utf8DecodeLoop (b :: b2 :: b3 :: b4 :: bs)
      = Char.ofNat ((b - 0xF0) * 262144 + (b2 - 0x80) * 4096 + (b3 - 0x80) * 64 + (b4 - 0x80))
          :: utf8DecodeLoop bs := by
  have e1 : ¬ b < 0x80 := by omega
  have e2 : ¬ b < 0xC2 := by omega
  have e3 : ¬ b < 0xE0 := by omega
  have e4 : ¬ b < 0xF0 := by omega
  rw [utf8DecodeLoop.eq_def]
  simp [e1, e2, e3, e4, h2, hlo, hhi, h3, h4, h5, h6]

theorem utf8DecodeLoop_encodeChar (c : Char) (rest : List Nat) :
    utf8DecodeLoop (utf8EncodeChar c ++ rest) = c :: utf8DecodeLoop rest := by
  have hv : c.toNat < 0xd800 ∨ (0xdfff < c.toNat ∧ c.toNat < 0x110000) := c.valid
  by_cases g1 : c.toNat < 0x80
  · rw [show utf8EncodeChar c = [c.toNat] from by simp [utf8EncodeChar, g1]]
    rw [List.cons_append, List.nil_append, utf8DecodeLoop_ascii _ _ g1, Char.ofNat_toNat]
  · by_cases g2 : c.toNat < 0x800
    · rw [show utf8EncodeChar c = [0xC0 + c.toNat / 64, 0x80 + c.toNat % 64] from by
        simp [utf8EncodeChar, g1, g2]]
      rw [List.cons_append, List.cons_append, List.nil_append,
        utf8DecodeLoop_two _ _ _ (by omega) (by omega) (by omega) (by omega)]
      rw [show (0xC0 + c.toNat / 64 - 0xC0) * 64 + (0x80 + c.toNat % 64 - 0x80) = c.toNat by omega]
      rw [Char.ofNat_toNat]
    · by_cases g3 : c.toNat < 0x10000
      · rw [show utf8EncodeChar c
            = [0xE0 + c.toNat / 4096, 0x80 + c.toNat / 64 % 64, 0x80 + c.toNat % 64] from by
          simp [utf8EncodeChar, g1, g2, g3]]
        rw [List.cons_append, List.cons_append, List.cons_append, List.nil_append,
          utf8DecodeLoop_three _ _ _ _ (by omega) (by omega)
            (by split <;> omega) (by split <;> omega) (by omega) (by omega)]
        rw [show (0xE0 + c.toNat / 4096 - 0xE0) * 4096 + (0x80 + c.toNat / 64 % 64 - 0x80) * 64
              + (0x80 + c.toNat % 64 - 0x80) = c.toNat by omega]
        rw [Char.ofNat_toNat]
      · rw [show utf8EncodeChar c
            = [0xF0 + c.toNat / 262144, 0x80 + c.toNat / 4096 % 64,
               0x80 + c.toNat / 64 % 64, 0x80 + c.toNat % 64] from by
          simp [utf8EncodeChar, g1, g2, g3]]
        rw [List.cons_append, List.cons_append, List.cons_append, List.cons_append,
          List.nil_append,
          utf8DecodeLoop_four _ _ _ _ _ (by omega) (by omega)
            (by split <;> omega) (by split <;> omega)
            (by omega) (by omega) (by omega) (by omega)]
        rw [show (0xF0 + c.toNat / 262144 - 0xF0) * 262144 + (0x80 + c.toNat / 4096 % 64 - 0x80) * 4096
              + (0x80 + c.toNat / 64 % 64 - 0x80) * 64 + (0x80 + c.toNat % 64 - 0x80) = c.toNat by omega]
        rw [Char.ofNat_toNat]

theorem utf8Decode_encode (s : String) : utf8Decode (utf8Encode s) = s := by
  rcases s with ⟨l⟩
  suffices h : utf8DecodeLoop ((l.map utf8EncodeChar).flatten) = l by
    simpa [utf8Decode, utf8Encode] using congrArg String.mk h
  induction l with
  | nil => rfl
  | cons c cs ih =>
    rw [List.map_cons, List.flatten_cons, utf8DecodeLoop_encodeChar, ih]

/-! ## Claim theorems -/

/-- Character-level chunk invariance: delivering any list of string
chunks to the streaming data handler forwards exactly the decoded
events of the complete lines of their concatenation, in order, with the
buffer retaining the trailing incomplete line. -/
theorem runTrace_resData_chunks (chunks : List String) :
    (runTrace initSession (Callback.response 200 :: chunks.map Callback.resData)).2
      = ((splitNl ((chunks.map String.data).flatten)).1).filterMap decodeLine
  ∧ (runTrace initSession (Callback.response 200 :: chunks.map Callback.resData)).1
      = ⟨true, Phase.streaming
            (String.mk (splitNl ((chunks.map String.data).flatten)).2), none⟩ := by
  have h0 : '\n' ∉ ("" : String).data := by simp [String.data]
  have hrun := runTrace_streaming chunks true none "" h0
  have hstep :
      runTrace initSession (Callback.response 200 :: chunks.map Callback.resData)
        = runTrace ⟨true, Phase.streaming "", none⟩ (chunks.map Callback.resData) := by
    simp [runTrace, step, initSession]
  rw [hstep, hrun]
  exact ⟨rfl, rfl⟩

/-- C1 counterexample: the same byte sequence `data: "é"\n` delivered
split inside the two-byte character é versus in one chunk: the per-chunk
`Buffer.toString()` turns each fragment of é into U+FFFD, so the split
delivery forwards the event `"\uFFFD\uFFFD"` while the unsplit delivery
forwards `"é"` — the decoded events differ between splittings of the
same bytes. -/
theorem c1_counterexample :
    (runTrace initSession (byteTrace
        [[0x64, 0x61, 0x74, 0x61, 0x3A, 0x20, 0x22, 0xC3], [0xA9, 0x22, 0x0A]])).2
      = [Json.str "\uFFFD\uFFFD"]
  ∧ (runTrace initSession (byteTrace
        [[0x64, 0x61, 0x74, 0x61, 0x3A, 0x20, 0x22, 0xC3, 0xA9, 0x22, 0x0A]])).2
      = [Json.str "é"]
  ∧ ¬ ((runTrace initSession (byteTrace
        [[0x64, 0x61, 0x74, 0x61, 0x3A, 0x20, 0x22, 0xC3], [0xA9, 0x22, 0x0A]])).2
      = (runTrace initSession (byteTrace
        [[0x64, 0x61, 0x74, 0x61, 0x3A, 0x20, 0x22, 0xC3, 0xA9, 0x22, 0x0A]])).2) := by
  refine ⟨rfl, rfl, ?_⟩
  intro hcon
  rw [show (runTrace initSession (byteTrace
        [[0x64, 0x61, 0x74, 0x61, 0x3A, 0x20, 0x22, 0xC3], [0xA9, 0x22, 0x0A]])).2
      = [Json.str "\uFFFD\uFFFD"] from rfl,
    show (runTrace initSession (byteTrace
        [[0x64, 0x61, 0x74, 0x61, 0x3A, 0x20, 0x22, 0xC3, 0xA9, 0x22, 0x0A]])).2
      = [Json.str "é"] from rfl] at hcon
  injection hcon with h1 h2
  injection h1 with h3
  exact absurd h3 (by decide)

/-- C1 (amended): for every byte sequence delivered to the stream proxy
and every way of splitting it into chunks at UTF-8 character boundaries
(each chunk a valid encoding, so no chunk boundary falls inside a
multi-byte character), the sequence of decoded events forwarded to the
UI event sink is the same: each complete `data: `-prefixed line whose
payload parses as JSON yields exactly one forwarded event, in
line-completion order, no data is lost across chunk boundaries, and the
buffer retains exactly the trailing incomplete line; in particular the
two chunks of Scenario B yield exactly the token event then the done
event.  (When a chunk boundary falls inside a multi-byte character the
per-chunk decoding substitutes U+FFFD and events can differ.) -/
theorem c1_byte_chunk_invariance :
    (∀ strs : List String,
        (runTrace initSession (byteTrace (strs.map utf8Encode))).2
          = ((splitNl ((strs.map String.data).flatten)).1).filterMap decodeLine
      ∧ (runTrace initSession (byteTrace (strs.map utf8Encode))).1
          = ⟨true, Phase.streaming
                (String.mk (splitNl ((strs.map String.data).flatten)).2), none⟩)
  ∧ (runTrace initSession (byteTrace
        [utf8Encode "data: \x7b\"type\":\"token\",\"content\":\"Hi\"\x7d\n\ndata: \x7b\"typ",
         utf8Encode "e\":\"done\",\"content\":\"Hi\"\x7d\n\n"])).2
      = [Json.obj [("type", Json.str "token"), ("content", Json.str "Hi")],
         Json.obj [("type", Json.str "done"), ("content", Json.str "Hi")]] := by
  constructor
  · intro strs
    have hmap : (strs.map utf8Encode).map byteChunkCallback = strs.map Callback.resData := by
      rw [List.map_map]
      exact List.map_congr_left (fun s _ => by
        simp [Function.comp, byteChunkCallback, utf8Decode_encode])
    unfold byteTrace
    rw [hmap]
    exact runTrace_resData_chunks strs
  · rfl

/-! ## Lemmas about the health checker -/

/-- When no attempt in the budget returns 200, every retry is consumed:
`n+1` attempts, `n` sleeps of `delay`, and the rejection carries the
reason of the final attempt. -/
theorem healthAttempt_all_fail (transport : Nat → AttemptOutcome) (delay : Nat) :
    ∀ (n idx : Nat), (∀ j, j ≤ n → transport (idx + j) ≠ AttemptOutcome.status 200) →
    healthAttempt transport delay idx n
      = (HealthResult.failed (failureMessage (transport (idx + n))), n + 1,
         List.replicate n delay) := by
  intro n
  induction n with
  | zero =>
    intro idx h
    have h0 := h 0 (Nat.le_refl 0)
    simp only [Nat.add_zero] at h0 ⊢
    simp [healthAttempt, h0]
  | succ n ih =>
    intro idx h
    have h0 : transport idx ≠ AttemptOutcome.status 200 := by
      have := h 0 (Nat.zero_le _)
      simpa using this
    have hrec := ih (idx + 1) (fun j hj => by
      have := h (j + 1) (by omega)
      have e : idx + (j + 1) = idx + 1 + j := by omega
      rw [e] at this
      exact this)
    have e2 : idx + 1 + n = idx + (n + 1) := by omega
    rw [e2] at hrec
    simp [healthAttempt, h0, hrec, List.replicate_succ]

/-- The probe resolves `ok` iff some attempt within the budget gets a
200 status. -/
theorem healthAttempt_ok_iff (transport : Nat → AttemptOutcome) (delay : Nat) :
    ∀ (n idx : Nat), (healthAttempt transport delay idx n).1 = HealthResult.ok
      ↔ ∃ j, j ≤ n ∧ transport (idx + j) = AttemptOutcome.status 200 := by
  intro n
  induction n with
  | zero =>
    intro idx
    by_cases h0 : transport idx = AttemptOutcome.status 200
    · simp [healthAttempt, h0]
    · simp only [healthAttempt, if_neg h0]
      constructor
      · intro h
        exact absurd h (by simp)
      · rintro ⟨j, hj, hja⟩
        have : j = 0 := Nat.le_zero.mp hj
        subst this
        simp only [Nat.add_zero] at hja
        exact absurd hja h0
  | succ n ih =>
    intro idx
    by_cases h0 : transport idx = AttemptOutcome.status 200
    · simp only [healthAttempt, if_pos h0]
      constructor
      · intro _
        exact ⟨0, Nat.zero_le _, by simpa using h0⟩
      · intro _
        trivial
    · simp only [healthAttempt, if_neg h0]
      rw [ih (idx + 1)]
      constructor
      · rintro ⟨j, hj, hja⟩
        refine ⟨j + 1, by omega, ?_⟩
        have e : idx + (j + 1) = idx + 1 + j := by omega
        rw [e]
        exact hja
      · rintro ⟨j, hj, hja⟩
        match j, hja with
        | 0, hja =>
          simp only [Nat.add_zero] at hja
          exact absurd hja h0
        | j + 1, hja =>
          refine ⟨j, by omega, ?_⟩
          have e : idx + 1 + j = idx + (j + 1) := by omega
          rw [e]
          exact hja

/-- The probe succeeds at the first attempt that returns 200: if attempt
`i` is the first such one, the probe stops there, having performed `i+1`
attempts and slept `i` fixed delays. -/
theorem healthAttempt_first_success (transport : Nat → AttemptOutcome) (delay : Nat) :
    ∀ (i idx n : Nat), i ≤ n → transport (idx + i) = AttemptOutcome.status 200 →
    (∀ j, j < i → transport (idx + j) ≠ AttemptOutcome.status 200) →
    healthAttempt transport delay idx n = (HealthResult.ok, i + 1, List.replicate i delay) := by
  intro i
  induction i with
  | zero =>
    intro idx n _ h200 _
    simp only [Nat.add_zero] at h200
    cases n <;> simp [healthAttempt, h200]
  | succ i ih =>
    intro idx n hle h200 hmin
    have h0 : transport idx ≠ AttemptOutcome.status 200 := by
      have := hmin 0 (Nat.succ_pos i)
      simpa using this
    match n, hle with
    | n + 1, hle =>
      have hrec := ih (idx + 1) n (by omega)
        (by
          have e : idx + (i + 1) = idx + 1 + i := by omega
          rw [e] at h200
          exact h200)
        (fun j hj => by
          have := hmin (j + 1) (by omega)
          have e : idx + 1 + j = idx + (j + 1) := by omega
          rw [e]
          exact this)
      simp [healthAttempt, h0, hrec, List.replicate_succ]

/-- C2: for every N and D, a probe with `retries = N` against an
always-unreachable target performs exactly `N+1` GET attempts, the
sleeps between consecutive attempts are all exactly `D` (fixed spacing,
no exponential backoff), and the total slept time equals, hence is at
least, `N*D`. -/
theorem c2_unreachable_probe_attempts (transport : Nat → AttemptOutcome)
    (N D : Nat) (h : ∀ i, transport i ≠ AttemptOutcome.status 200) :
    (checkBackendHealth transport N D).1 ≠ HealthResult.ok
  ∧ (checkBackendHealth transport N D).2.1 = N + 1
  ∧ (checkBackendHealth transport N D).2.2 = List.replicate N D
  ∧ (checkBackendHealth transport N D).2.2.sum = N * D
  ∧ N * D ≤ (checkBackendHealth transport N D).2.2.sum := by
  have hall := healthAttempt_all_fail transport D N 0 (fun j _ => by simpa using h j)
  simp only [Nat.zero_add] at hall
  unfold checkBackendHealth
  rw [hall]
  refine ⟨by simp, rfl, rfl, ?_, ?_⟩
  · simp [List.sum_replicate, Nat.smul_one_eq_cast]
  · simp [List.sum_replicate]

/-- C2 witness: retries 3, delay 100 against a connection-refused
target: 4 attempts, gaps `[100,100,100]`, total 300. -/
theorem c2_unreachable_probe_attempts_witness :
    (checkBackendHealth (fun _ => AttemptOutcome.connError "ECONNREFUSED") 3 100).1
        ≠ HealthResult.ok
  ∧ (checkBackendHealth (fun _ => AttemptOutcome.connError "ECONNREFUSED") 3 100).2.1 = 3 + 1
  ∧ (checkBackendHealth (fun _ => AttemptOutcome.connError "ECONNREFUSED") 3 100).2.2
        = List.replicate 3 100
  ∧ (checkBackendHealth (fun _ => AttemptOutcome.connError "ECONNREFUSED") 3 100).2.2.sum
        = 3 * 100
  ∧ 3 * 100 ≤ (checkBackendHealth (fun _ => AttemptOutcome.connError "ECONNREFUSED") 3 100).2.2.sum :=
  c2_unreachable_probe_attempts (fun _ => AttemptOutcome.connError "ECONNREFUSED") 3 100
    (fun _ h => by cases h)

/-- C5: the probe resolves `ok` iff some attempt within the budget gets
a 200 status; it stops at the first such attempt (having made `i+1`
attempts); and when all `N+1` attempts fail it rejects with the specific
reason of the final attempt (bad status / connection error / timeout
message). -/
theorem c5_probe_ok_iff_and_reasons (transport : Nat → AttemptOutcome) (N D : Nat) :
    ((checkBackendHealth transport N D).1 = HealthResult.ok
      ↔ ∃ j, j ≤ N ∧ transport j = AttemptOutcome.status 200)
  ∧ (∀ i, i ≤ N → transport i = AttemptOutcome.status 200 →
      (∀ j, j < i → transport j ≠ AttemptOutcome.status 200) →
      checkBackendHealth transport N D = (HealthResult.ok, i + 1, List.replicate i D))
  ∧ ((∀ j, j ≤ N → transport j ≠ AttemptOutcome.status 200) →
      checkBackendHealth transport N D
        = (HealthResult.failed (failureMessage (transport N)), N + 1,
           List.replicate N D)) := by
  refine ⟨?_, ?_, ?_⟩
  · have := healthAttempt_ok_iff transport D N 0
    simpa [checkBackendHealth] using this
  · intro i hi h200 hmin
    have := healthAttempt_first_success transport D i 0 N hi
      (by simpa using h200) (fun j hj => by simpa using hmin j hj)
    simpa [checkBackendHealth] using this
  · intro hfail
    have := healthAttempt_all_fail transport D N 0 (fun j hj => by simpa using hfail j hj)
    simpa [checkBackendHealth] using this

/-- C5 witness: a target that answers 503, then 200: the probe resolves
ok after exactly 2 attempts; an always-timing-out target with retries 2
rejects with the timeout message after 3 attempts. -/
theorem c5_probe_ok_iff_and_reasons_witness :
    checkBackendHealth
        (fun i => if i = 1 then AttemptOutcome.status 200 else AttemptOutcome.status 503) 3 100
      = (HealthResult.ok, 1 + 1, List.replicate 1 100)
  ∧ checkBackendHealth (fun _ => AttemptOutcome.timeout) 2 50
      = (HealthResult.failed "Health check timeout", 2 + 1, List.replicate 2 50) := by
  constructor
  · exact (c5_probe_ok_iff_and_reasons
      (fun i => if i = 1 then AttemptOutcome.status 200 else AttemptOutcome.status 503) 3 100).2.1
      1 (by decide) (by decide) (by decide)
  · exact (c5_probe_ok_iff_and_reasons (fun _ => AttemptOutcome.timeout) 2 50).2.2
      (fun j _ h => by cases h)

/-! ## String append helpers -/

theorem strAppend_assoc (a b c : String) : a ++ b ++ c = a ++ (b ++ c) := by
  rcases a with ⟨a⟩
  rcases b with ⟨b⟩
  rcases c with ⟨c⟩
  exact congrArg String.mk (List.append_assoc a b c)

theorem strAppend_empty (a : String) : a ++ "" = a := by
  rcases a with ⟨a⟩
  exact congrArg String.mk (List.append_nil a)

/-! ## Trace composition and the non-200 branch -/

theorem runTrace_append (s : SessionState) (l1 l2 : List Callback) :
    runTrace s (l1 ++ l2)
      = ((runTrace (runTrace s l1).1 l2).1,
         (runTrace s l1).2 ++ (runTrace (runTrace s l1).1 l2).2) := by
  induction l1 generalizing s with
  | nil => simp [runTrace]
  | cons cb cbs ih => simp [runTrace, ih, List.append_assoc]

/-- In the non-200 branch, data callbacks only accumulate the error
body and forward nothing. -/
theorem runTrace_errorBody (chunks : List String) :
    ∀ (r : Bool) (res : Option ChatResult) (status : Nat) (acc : String),
    runTrace ⟨r, Phase.errorBody status acc, res⟩ (chunks.map Callback.resData)
      = (⟨r, Phase.errorBody status (chunks.foldl (· ++ ·) acc), res⟩, []) := by
  induction chunks with
  | nil => intro r res status acc; simp [runTrace]
  | cons c cs ih =>
    intro r res status acc
    simp [runTrace, step, ih]

/-- C4: a non-2xx response makes the proxy read the whole body, forward
exactly one error event whose message contains both the status code and
the body text, and resolve `{success:false}` carrying the body. -/
theorem c4_non200_single_error (status : Nat) (h : status ≠ 200) (chunks : List String) :
    (runTrace initSession
        (Callback.response status :: (chunks.map Callback.resData ++ [Callback.resEnd]))).2
      = [errorEvent ("HTTP " ++ toString status ++ ": " ++ chunks.foldl (· ++ ·) "")]
  ∧ (runTrace initSession
        (Callback.response status :: (chunks.map Callback.resData ++ [Callback.resEnd]))).1.resolved
      = some ⟨false, some (chunks.foldl (· ++ ·) "")⟩
  ∧ containsStr ("HTTP " ++ toString status ++ ": " ++ chunks.foldl (· ++ ·) "")
      (toString status)
  ∧ containsStr ("HTTP " ++ toString status ++ ": " ++ chunks.foldl (· ++ ·) "")
      (chunks.foldl (· ++ ·) "") := by
  have hstep :
      runTrace initSession
          (Callback.response status :: (chunks.map Callback.resData ++ [Callback.resEnd]))
        = (fun o => ((runTrace o.state (chunks.map Callback.resData ++ [Callback.resEnd])).1,
             o.sink ++ (runTrace o.state (chunks.map Callback.resData ++ [Callback.resEnd])).2))
            (step initSession (Callback.response status)) := rfl
  have hresp : step initSession (Callback.response status)
      = ⟨{ initSession with phase := Phase.errorBody status "" }, [], false, none⟩ := by
    simp [step, h]
  rw [hstep, hresp]
  simp only [runTrace_append, runTrace_errorBody]
  refine ⟨?_, ?_, ?_, ?_⟩
  · simp [runTrace, step, resolveOnce, initSession]
  · simp [runTrace, step, resolveOnce, initSession]
  · exact ⟨"HTTP ", ": " ++ chunks.foldl (· ++ ·) "", by rw [strAppend_assoc]⟩
  · exact ⟨"HTTP " ++ toString status ++ ": ", "",
      (strAppend_empty ("HTTP " ++ toString status ++ ": " ++ chunks.foldl (· ++ ·) "")).symm⟩

/-- C4 witness: Scenario C — status 500, body "Internal error": one
error event `HTTP 500: Internal error`, resolved `{success:false}`. -/
theorem c4_non200_single_error_witness :
    (runTrace initSession
        (Callback.response 500 :: ([ "Internal error" ].map Callback.resData ++ [Callback.resEnd]))).2
      = [errorEvent ("HTTP " ++ toString 500 ++ ": " ++ [ "Internal error" ].foldl (· ++ ·) "")]
  ∧ (runTrace initSession
        (Callback.response 500 :: ([ "Internal error" ].map Callback.resData ++ [Callback.resEnd]))).1.resolved
      = some ⟨false, some ([ "Internal error" ].foldl (· ++ ·) "")⟩
  ∧ containsStr ("HTTP " ++ toString 500 ++ ": " ++ [ "Internal error" ].foldl (· ++ ·) "")
      (toString 500)
  ∧ containsStr ("HTTP " ++ toString 500 ++ ": " ++ [ "Internal error" ].foldl (· ++ ·) "")
      ([ "Internal error" ].foldl (· ++ ·) "") :=
  c4_non200_single_error 500 (by decide) ["Internal error"]

/-- C3 counterexample: after `chat:cancel` on an in-flight streaming
session, a late data callback delivering one complete frame is still
processed and its decoded event is forwarded to the sink, so events are
not suppressed after cancellation. -/
theorem c3_counterexample :
    (step (runTrace initSession [Callback.response 200, Callback.cancel]).1
        (Callback.resData "data: \x7b\"type\":\"done\",\"content\":\"Hi\"\x7d\n")).sink
      = [Json.obj [("type", Json.str "done"), ("content", Json.str "Hi")]]
  ∧ (step (runTrace initSession [Callback.response 200, Callback.cancel]).1
        (Callback.resData "data: \x7b\"type\":\"done\",\"content\":\"Hi\"\x7d\n")).sink
      ≠ [] := by
  have h : (step (runTrace initSession [Callback.response 200, Callback.cancel]).1
        (Callback.resData "data: \x7b\"type\":\"done\",\"content\":\"Hi\"\x7d\n")).sink
      = [Json.obj [("type", Json.str "done"), ("content", Json.str "Hi")]] := rfl
  exact ⟨h, h ▸ List.cons_ne_nil _ _⟩

/-- C3 (amended): `cancel()` destroys the connection and clears the
active-request reference, forwarding nothing itself, but it leaves the
session's parsing state untouched and the handlers perform no
cancelled-flag check: any transport callback firing after cancellation
forwards exactly the events it would have forwarded without the
cancellation. -/
theorem c3_cancel_does_not_suppress :
    ∀ (s : SessionState) (cb : Callback),
      (step (step s Callback.cancel).state cb).sink = (step s cb).sink
    ∧ (step s Callback.cancel).state.req = false
    ∧ (step s Callback.cancel).sink = []
    ∧ (step s Callback.cancel).state.phase = s.phase := by
  intro s cb
  rcases s with ⟨req, phase, res⟩
  cases req <;> cases cb <;> cases phase <;>
    simp [step, apply_ite]

/-- C6 counterexample: the startup fallback probe is invoked with
`retries = 5`, which performs 6 GET attempts against an unreachable
target, not 5. -/
theorem c6_counterexample :
    (checkBackendHealth (fun _ => AttemptOutcome.connError "ECONNREFUSED") 5 1000).2.1 = 6
  ∧ (checkBackendHealth (fun _ => AttemptOutcome.connError "ECONNREFUSED") 5 1000).2.1 ≠ 5 := by
  decide

/-- C6 (amended): when no readiness marker was observed within the
grace window and the fallback probe `checkBackendHealth(5, 1000)`
(6 attempts, 1s spacing) fails, the startup timeout handler resolves
the soft "not ready" value `false`; it never rejects for any transport
or readiness flag. -/
theorem c6_soft_not_ready (transport : Nat → AttemptOutcome) :
    ((checkBackendHealth transport 5 1000).1 ≠ HealthResult.ok →
      startupTimeoutHandler false transport = (some StartOutcome.resolvedNotReady, false))
  ∧ (∀ (ready : Bool) (m : String),
      (startupTimeoutHandler ready transport).1 ≠ some (StartOutcome.rejected m)) := by
  constructor
  · intro h
    unfold startupTimeoutHandler
    rcases hc : (checkBackendHealth transport 5 1000).1 with _ | msg
    · exact absurd hc h
    · simp [hc]
  · intro ready m
    unfold startupTimeoutHandler
    cases ready
    · rcases hc : (checkBackendHealth transport 5 1000).1 with _ | msg <;> simp [hc]
    · simp

/-- C6 witness: an always-timing-out transport fails the fallback probe
and start resolves the soft `false`. -/
theorem c6_soft_not_ready_witness :
    startupTimeoutHandler false (fun _ => AttemptOutcome.timeout)
      = (some StartOutcome.resolvedNotReady, false) :=
  (c6_soft_not_ready (fun _ => AttemptOutcome.timeout)).1 (by decide)

/-- C7: `stopPythonBackend` with no process running is a no-op: no
signal is sent and the state is unchanged; with a process running it
sends one SIGTERM and synchronously clears handle and readiness flag;
hence stop-twice equals stop-once on every state (the second stop sends
no signal and changes nothing). -/
theorem c7_stop_idempotent :
    (∀ s : SupervisorState, s.pythonProcess = false → stopPythonBackend s = (s, []))
  ∧ (∀ s : SupervisorState, s.pythonProcess = true →
      stopPythonBackend s = (⟨false, false⟩, ["SIGTERM"]))
  ∧ (∀ s : SupervisorState,
      stopPythonBackend (stopPythonBackend s).1 = ((stopPythonBackend s).1, [])) := by
  refine ⟨?_, ?_, ?_⟩
  · intro s h
    simp [stopPythonBackend, h]
  · intro s h
    simp [stopPythonBackend, h]
  · intro s
    rcases s with ⟨p, rdy⟩
    cases p <;> simp [stopPythonBackend]

/-- C7 witness: stop on a stopped supervisor is a no-op; stop on a
running one clears state and sends SIGTERM. -/
theorem c7_stop_idempotent_witness :
    stopPythonBackend ⟨false, true⟩ = (⟨false, true⟩, [])
  ∧ stopPythonBackend ⟨true, true⟩ = (⟨false, false⟩, ["SIGTERM"]) :=
  ⟨c7_stop_idempotent.1 ⟨false, true⟩ rfl, c7_stop_idempotent.2.1 ⟨true, true⟩ rfl⟩

/-- C8: `chat:cancel` on an idle registry returns `{cancelled:false}`,
sends nothing, destroys nothing and leaves the state unchanged; on an
active registry it destroys the request, clears the reference and
returns `{cancelled:true}`. -/
theorem c8_cancel_contract :
    (∀ s : SessionState, s.req = false →
        step s Callback.cancel = ⟨s, [], false, some false⟩)
  ∧ (∀ s : SessionState, s.req = true →
        step s Callback.cancel = ⟨{ s with req := false }, [], true, some true⟩) := by
  constructor <;> intro s h <;> simp [step, h]

/-- C8 witness: cancel on an idle and on an active session. -/
theorem c8_cancel_contract_witness :
    step ⟨false, Phase.waiting, none⟩ Callback.cancel
      = ⟨⟨false, Phase.waiting, none⟩, [], false, some false⟩
  ∧ step initSession Callback.cancel
      = ⟨{ initSession with req := false }, [], true, some true⟩ :=
  ⟨c8_cancel_contract.1 ⟨false, Phase.waiting, none⟩ rfl,
   c8_cancel_contract.2 initSession rfl⟩

/-- C9 counterexample: after a non-2xx response completes (status 500,
empty body), the session has resolved `{success:false}` — it is no
longer in flight — yet the registry still holds the request reference,
and a subsequent `cancel()` returns `{cancelled:true}`. -/
theorem c9_counterexample :
    (runTrace initSession [Callback.response 500, Callback.resEnd]).1.resolved
      = some ⟨false, some ""⟩
  ∧ (runTrace initSession [Callback.response 500, Callback.resEnd]).1.req = true
  ∧ (step (runTrace initSession [Callback.response 500, Callback.resEnd]).1
        Callback.cancel).cancelResult = some true := ⟨rfl, rfl, rfl⟩

/-- C9 (amended): the four named terminal paths — natural stream end,
response error, request error, cancellation — all clear the
active-request reference, and `cancel()` invoked once the reference is
cleared returns `{cancelled:false}`; but the non-2xx completion path
resolves the session without clearing the reference, so the registry
can keep holding a reference after the session has resolved. -/
theorem c9_terminal_paths_registry :
    (∀ (s : SessionState) (buf : String), s.phase = Phase.streaming buf →
        (step s Callback.resEnd).state.req = false)
  ∧ (∀ (s : SessionState) (buf : String) (m : String), s.phase = Phase.streaming buf →
        (step s (Callback.resError m)).state.req = false)
  ∧ (∀ (s : SessionState) (m : String), (step s (Callback.reqError m)).state.req = false)
  ∧ (∀ s : SessionState, (step s Callback.cancel).state.req = false)
  ∧ (∀ s : SessionState, s.req = false →
        (step s Callback.cancel).cancelResult = some false)
  ∧ (∀ (s : SessionState) (status : Nat) (acc : String),
        s.phase = Phase.errorBody status acc →
        (step s Callback.resEnd).state.req = s.req) := by
  refine ⟨?_, ?_, ?_, ?_, ?_, ?_⟩
  · intro s buf h
    simp [step, h]
  · intro s buf m h
    simp [step, h]
  · intro s m
    simp [step]
  · intro s
    rcases s with ⟨req, phase, res⟩
    cases req <;> simp [step]
  · intro s h
    simp [step, h]
  · intro s status acc h
    simp [step, h]

/-- C9 witness: concrete instances of each clearing path and of the
idle-cancel result. -/
theorem c9_terminal_paths_registry_witness :
    (step ⟨true, Phase.streaming "", none⟩ Callback.resEnd).state.req = false
  ∧ (step ⟨true, Phase.streaming "", none⟩ (Callback.resError "reset")).state.req = false
  ∧ (step initSession (Callback.reqError "refused")).state.req = false
  ∧ (step initSession Callback.cancel).state.req = false
  ∧ (step ⟨false, Phase.waiting, none⟩ Callback.cancel).cancelResult = some false
  ∧ (step ⟨true, Phase.errorBody 500 "", none⟩ Callback.resEnd).state.req
      = (⟨true, Phase.errorBody 500 "", none⟩ : SessionState).req :=
  ⟨c9_terminal_paths_registry.1 ⟨true, Phase.streaming "", none⟩ "" rfl,
   c9_terminal_paths_registry.2.1 ⟨true, Phase.streaming "", none⟩ "" "reset" rfl,
   c9_terminal_paths_registry.2.2.1 initSession "refused",
   c9_terminal_paths_registry.2.2.2.1 initSession,
   c9_terminal_paths_registry.2.2.2.2.1 ⟨false, Phase.waiting, none⟩ rfl,
   c9_terminal_paths_registry.2.2.2.2.2 ⟨true, Phase.errorBody 500 "", none⟩ 500 "" rfl⟩

/-- C10: the posted `model` field is never empty; when the request
omits the model or sends an empty one, the field is the configured
store model, falling back to the literal `gpt-5.2` when the store value
is empty too. -/
theorem c10_model_fallback :
    (∀ (m : Option String) (storeModel : String), postDataModel m storeModel ≠ "")
  ∧ (∀ (m : Option String) (storeModel : String), (m = none ∨ m = some "") →
      postDataModel m storeModel = jsStringOr storeModel "gpt-5.2") := by
  constructor
  · intro m s
    unfold postDataModel jsStringOr
    split_ifs with h1 h2 <;> simp_all
  · rintro m s (rfl | rfl) <;> simp [postDataModel, jsStringOr]

/-- C10 witness: omitted request model with empty store model falls
back to `gpt-5.2`; empty request model with configured store model uses
the store model. -/
theorem c10_model_fallback_witness :
    postDataModel none "" = jsStringOr "" "gpt-5.2"
  ∧ postDataModel (some "") "gpt-4o" = jsStringOr "gpt-4o" "gpt-5.2" :=
  ⟨c10_model_fallback.2 none "" (Or.inl rfl),
   c10_model_fallback.2 (some "") "gpt-4o" (Or.inr rfl)⟩

end MSConsole
